import Mathlib

/-!
Verification development for the LINE/Shopify customer-support bot
(`app.js`).  The JavaScript source is shallowly embedded: every pure
function is translated to a computable Lean definition, the external
collaborators (Shopify REST calls, the Notion record store and the
OpenAI completion call) are an explicit `Env` record of oracles whose
failures are `Except.error`, and the module-level `conversationStates`
`Map` together with its `setTimeout` deletions is an explicit
`StoreState` (records plus pending one-shot timers) threaded through
the handlers.  JavaScript regular expressions are embedded as
backtracking matchers specialised to the exact patterns of the source,
with the same scan order (leftmost start position wins, greedy
quantifiers, ordered alternation).  Timestamps are naturals; the
locale rendering `toLocaleDateString` is abstracted (`jpDate`), which
no property below depends on.
-/

/-! ## Character classes and JS string helpers -/

/-- The JavaScript `\s` class (whitespace as used by `trim` and the
`[\s:：]` classes of the order-number patterns). -/
def isJsSpace (c : Char) : Bool :=
  c = ' ' || c = '\t' || c = '\n' || c = '\r' || c = '\x0b' || c = '\x0c' ||
  c.val = 0xa0 || c.val = 0x1680 || (0x2000 ≤ c.val && c.val ≤ 0x200a) ||
  c.val = 0x2028 || c.val = 0x2029 || c.val = 0x202f || c.val = 0x205f ||
  c.val = 0x3000 || c.val = 0xfeff

/-- JavaScript `.` (dot without the `s` flag): any char except a line
terminator. -/
def dotChar (c : Char) : Bool :=
  !(c = '\n' || c = '\r' || c.val = 0x2028 || c.val = 0x2029)

/-- `String.prototype.trim` on a char list. -/
def trimList (cs : List Char) : List Char :=
  ((cs.dropWhile isJsSpace).reverse.dropWhile isJsSpace).reverse

/-- `String.prototype.trim`. -/
def jsTrim (s : String) : String := ⟨trimList s.data⟩

/-- Substring containment, i.e. `hay.includes(needle)`. -/
def containsSub (needle hay : List Char) : Bool :=
  needle.isPrefixOf hay ||
    match hay with
    | [] => false
    | _ :: t => containsSub needle t

/-- `hay.includes(needle)` on strings. -/
def containsStr (hay needle : String) : Bool := containsSub needle.data hay.data

/-- `message.slice(0, -1)`: drop the last character. -/
def jsDropLast (s : String) : String := ⟨s.data.dropLast⟩

/-- `message.slice(1)`: drop the first character. -/
def jsDropFirst (s : String) : String := ⟨s.data.drop 1⟩

/-- Leftmost-match regex scan: try the pattern matcher `f` at every
start position, left to right, and return the first success.  This is
how `String.prototype.match` locates an unanchored pattern. -/
def scanFor {α : Type} (f : List Char → Option α) : List Char → Option α
  | [] => f []
  | c :: t =>
    match f (c :: t) with
    | some r => some r
    | none => scanFor f t

/-! ## Order-number extraction (`analyzeMessage`, lines 118-132)

The four patterns `/#(\d+)/`, `/注文番号[\s:：]*(\d+)/`,
`/オーダー[\s:：]*(\d+)/`, `/(\d{4,})/` are tried in this order and
the first whole-pattern match wins. -/

/-- Maximal leading digit run (greedy `\d+` with nothing after it). -/
def digitRun (cs : List Char) : List Char := cs.takeWhile Char.isDigit

/-- `/#(\d+)/` anchored at the current position. -/
def hashMatchAt : List Char → Option (List Char)
  | '#' :: rest =>
    let run := digitRun rest
    if run = [] then none else some run
  | _ => none

/-- `/LABEL[\s:：]*(\d+)/` anchored at the current position.  The char
class `[\s:：]` is disjoint from `\d`, so greedy class consumption
followed by a mandatory digit needs no further backtracking. -/
def labeledMatchAt (lab : List Char) (cs : List Char) : Option (List Char) :=
  if lab.isPrefixOf cs then
    let rest := (cs.drop lab.length).dropWhile (fun c => isJsSpace c || c = ':' || c = '：')
    let run := digitRun rest
    if run = [] then none else some run
  else none

/-- `/(\d{4,})/` anchored at the current position: at least four
digits here, capturing the maximal run (greedy). -/
def bareDigitsMatchAt (cs : List Char) : Option (List Char) :=
  let run := digitRun cs
  if 4 ≤ run.length then some run else none

/-- The ordered pattern list of `analyzeMessage`. -/
def orderPatterns : List (List Char → Option (List Char)) :=
  [hashMatchAt, labeledMatchAt "注文番号".data, labeledMatchAt "オーダー".data,
   bareDigitsMatchAt]

/-- Order-number extraction: first pattern (in listed order) that
matches anywhere in the message wins; its capture group is returned. -/
def extractOrderNumber (message : String) : Option String :=
  (orderPatterns.findSome? (fun p => scanFor p message.data)).map (fun cs => ⟨cs⟩)

/-! ## Customer-name extraction (`extractCustomerName`, lines 171-192) -/

/-- Suffix alternation `(?:です|と申します|といいます)` of patterns 1 and 3. -/
def nameSuffixes1 : List (List Char) :=
  ["です".data, "と申します".data, "といいます".data]

/-- Suffix alternation `(?:です|と申します)` of pattern 2. -/
def nameSuffixes2 : List (List Char) := ["です".data, "と申します".data]

/-- Greedy `(.{2,10})` followed by one of `suffixes`, anchored at the
current position: capture lengths are tried from 10 down to 2
(backtracking), alternatives left to right. -/
def capSuffixAt (suffixes : List (List Char)) (cs : List Char) : Option (List Char) :=
  (List.range 9).findSome? (fun k =>
    let n := 10 - k
    if n ≤ cs.length ∧ (cs.take n).all dotChar ∧
        suffixes.any (fun suf => suf.isPrefixOf (cs.drop n))
    then some (cs.take n) else none)

/-- Greedy `X?`: if the next char is `X` the engine first tries the
branch that consumed it, then the one that did not. -/
def optChar (x : Char) : List Char → List (List Char)
  | [] => [[]]
  | c :: t => if c = x then [t, c :: t] else [c :: t]

/-- Pattern `/私?は?(.{2,10})(?:です|と申します|といいます)/` at the
current position. -/
def namePat1At (cs : List Char) : Option (List Char) :=
  (optChar '私' cs).findSome? (fun cs1 =>
    (optChar 'は' cs1).findSome? (fun cs2 => capSuffixAt nameSuffixes1 cs2))

/-- Pattern `/名前は(.{2,10})(?:です|と申します)/` at the current
position. -/
def namePat2At (cs : List Char) : Option (List Char) :=
  if ("名前は".data).isPrefixOf cs then
    capSuffixAt nameSuffixes2 (cs.drop 3)
  else none

/-- Pattern `/(.{2,10})(?:です|と申します|といいます)$/` at the current
position: the suffix must end the string (`$`, multiline flag off). -/
def namePat3At (cs : List Char) : Option (List Char) :=
  (List.range 9).findSome? (fun k =>
    let n := 10 - k
    if n ≤ cs.length ∧ (cs.take n).all dotChar ∧
        nameSuffixes1.any (fun suf => cs.drop n = suf)
    then some (cs.take n) else none)

/-- Char class `[ぁ-んァ-ヶー一-龯]` of the bare-name fallback. -/
def isNameScript (c : Char) : Bool :=
  (0x3041 ≤ c.val && c.val ≤ 0x3093) || (0x30a1 ≤ c.val && c.val ≤ 0x30f6) ||
  c.val = 0x30fc || (0x4e00 ≤ c.val && c.val ≤ 0x9faf)

/-- `extractCustomerName`: the three naming patterns in order, each
returning the trimmed capture; otherwise the whole trimmed message if
it is a bare 2-4 character name-script token; otherwise `none`
(JS `null`).  Note a successful pattern may return the empty string
when its capture trims to nothing. -/
def extractCustomerName (message : String) : Option String :=
  match scanFor namePat1At message.data with
  | some cap => some ⟨trimList cap⟩
  | none =>
  match scanFor namePat2At message.data with
  | some cap => some ⟨trimList cap⟩
  | none =>
  match scanFor namePat3At message.data with
  | some cap => some ⟨trimList cap⟩
  | none =>
    let t := trimList message.data
    if 2 ≤ t.length ∧ t.length ≤ 4 ∧ t.all isNameScript then some ⟨t⟩ else none

/-! ## Classification and escalation (lines 230-261) -/

/-- The ordered category/trigger table of `categorizeMessage`
(`Object.entries` iterates string keys in insertion order). -/
def categoryTable : List (String × List String) :=
  [("配送・発送", ["発送", "配送", "届", "いつ", "到着", "追跡"]),
   ("注文確認", ["注文", "確認", "状況", "ステータス"]),
   ("キャンセル・返品", ["キャンセル", "返品", "返金", "交換"]),
   ("在庫", ["在庫", "入荷", "売り切れ", "再入荷"]),
   ("商品", ["商品", "サイズ", "色", "詳細"]),
   ("支払い", ["支払", "決済", "振込", "クレジット"]),
   ("営業・その他", ["営業時間", "休み", "問い合わせ"])]

/-- First category whose trigger list has a substring of the message;
default `"その他"`. -/
def categorizeMessage (message : String) : String :=
  match categoryTable.find? (fun p => p.2.any (fun kw => containsStr message kw)) with
  | some p => p.1
  | none => "その他"

/-- Distress keywords of `shouldEscalateToHuman`. -/
def escalationKeywords : List String := ["クレーム", "怒", "最悪", "詐欺", "訴訟", "弁護士"]

/-- Categories that always require human review. -/
def needsHumanCategories : List String := ["キャンセル・返品"]

/-- `shouldEscalateToHuman(message, context)`; only `context.category`
is consulted. -/
def shouldEscalateToHuman (message : String) (category : String) : Bool :=
  escalationKeywords.any (fun kw => containsStr message kw) ||
    needsHumanCategories.contains category

/-! ## Order data model (Shopify payloads and their normalization) -/

/-- A `line_items` element, with the fields read by the source. -/
structure LineItem where
  name : String
  quantity : Nat
  price : String
deriving DecidableEq, Repr

/-- A Shopify customer record (`customers/search.json` element and the
embedded `order.customer`, which the REST API may omit: `none` models
JS `null`). -/
structure CustomerInfo where
  id : Nat
  first_name : String
  last_name : String
  email : String
deriving DecidableEq, Repr

/-- A `fulfillments` element.  `none` on the tracking fields models JS
`null`. -/
structure Fulfillment where
  tracking_number : Option String
  tracking_company : Option String
  tracking_url : Option String
  status : String
  created_at : Nat
deriving DecidableEq, Repr

/-- A raw Shopify order as returned by `orders.json`.  `created_at` is
the timestamp as a natural (its `toLocaleDateString` rendering is
abstracted); `shipping_address` is kept opaque as a string. -/
structure RawOrder where
  id : Nat
  order_number : Nat
  name : String
  financial_status : String
  fulfillment_status : Option String
  created_at : Nat
  total_price : String
  currency : String
  line_items : List LineItem
  customer : Option CustomerInfo
  shipping_address : String
  fulfillments : List Fulfillment
deriving DecidableEq, Repr

/-- Normalized tracking entry built by `getOrderDetails`. -/
structure TrackingEntry where
  trackingNumber : Option String
  trackingCompany : Option String
  trackingUrl : Option String
  status : String
deriving DecidableEq, Repr

/-- The normalized order summary built by `getOrderDetails`
(lines 278-301). -/
structure OrderSummary where
  orderNumber : Nat
  status : String
  fulfillmentStatus : Option String
  createdAt : Nat
  totalPrice : String
  currency : String
  items : List LineItem
  customerName : String
  customerEmail : String
  shippingAddress : String
  trackingInfo : List TrackingEntry
deriving DecidableEq, Repr

/-- An opaque Notion inquiry record; the core only uses presence and
count. -/
structure PastInquiry where
  tag : Nat
deriving DecidableEq, Repr

/-- The external collaborators, as response oracles.  `Except.error ()`
is a thrown/rejected call.  `ordersByName` answers
`orders.json?name=...` (order-number lookup), `searchCustomers`
answers `customers/search.json?query=...`, `ordersByCustomer` answers
`orders.json?customer_id=...&status=any&limit=10`, `history` is the
Notion inquiry-history query for the current user, and `llm` is the
OpenAI chat-completion text. -/
structure Env where
  ordersByName : String → Except Unit (List RawOrder)
  searchCustomers : String → Except Unit (List CustomerInfo)
  ordersByCustomer : Nat → Except Unit (List RawOrder)
  history : Except Unit (List PastInquiry)
  llm : Except Unit String

/-! ## Order resolver (`getOrderDetails`, lines 266-306, and
`searchOrdersByCustomerName`, lines 195-227) -/

/-- `getOrderDetails`: look the number up, take the first order,
normalize.  Any failure — including the `TypeError` thrown by
`order.customer.first_name` when the payload has a `null` customer —
is caught and becomes `none`. -/
def getOrderDetails (env : Env) (orderNumber : String) : Option OrderSummary :=
  match env.ordersByName orderNumber with
  | .error _ => none
  | .ok [] => none
  | .ok (o :: _) =>
    match o.customer with
    | none => none
    | some c =>
      some { orderNumber := o.order_number, status := o.financial_status,
             fulfillmentStatus := o.fulfillment_status, createdAt := o.created_at,
             totalPrice := o.total_price, currency := o.currency,
             items := o.line_items,
             customerName := c.first_name ++ " " ++ c.last_name,
             customerEmail := c.email, shippingAddress := o.shipping_address,
             trackingInfo := o.fulfillments.map (fun f =>
               { trackingNumber := f.tracking_number,
                 trackingCompany := f.tracking_company,
                 trackingUrl := f.tracking_url, status := f.status }) }

/-- The three search queries of `searchOrdersByCustomerName`:
the name as given, minus its last character (`slice(0, -1)`), minus
its first character (`slice(1)`). -/
def nameQueries (customerName : String) : List String :=
  [customerName, jsDropLast customerName, jsDropFirst customerName]

/-- Orders of all customers found for one query, accumulated in
iteration order.  A failing call aborts the whole computation (the JS
`try` wraps the entire loop). -/
def ordersOfCustomers (env : Env) : List CustomerInfo → Except Unit (List RawOrder)
  | [] => .ok []
  | c :: cs => do
    let mine ← env.ordersByCustomer c.id
    let rest ← ordersOfCustomers env cs
    pure (mine ++ rest)

/-- `allOrders` accumulation over the query list. -/
def collectOrders (env : Env) : List String → Except Unit (List RawOrder)
  | [] => .ok []
  | q :: qs => do
    let customers ← env.searchCustomers q
    let mine ← ordersOfCustomers env customers
    let rest ← collectOrders env qs
    pure (mine ++ rest)

/-- One step of `new Map(allOrders.map(o => [o.id, o]))`: a duplicate
key keeps its first position but takes the latest value. -/
def mapUpsert (acc : List (Nat × RawOrder)) (o : RawOrder) : List (Nat × RawOrder) :=
  if acc.any (fun p => p.1 = o.id) then
    acc.map (fun p => if p.1 = o.id then (p.1, o) else p)
  else acc ++ [(o.id, o)]

/-- De-duplication by order id via JS `Map` insertion semantics. -/
def dedupById (l : List RawOrder) : List RawOrder :=
  (l.foldl mapUpsert []).map (fun p => p.2)

/-- Insert into a descending-by-`created_at` list, before the first
element that does not beat it (so an earlier element stays ahead of
later elements with the same timestamp). -/
def insertByCreatedDesc (o : RawOrder) : List RawOrder → List RawOrder
  | [] => [o]
  | x :: xs =>
    if x.created_at ≤ o.created_at then o :: x :: xs
    else x :: insertByCreatedDesc o xs

/-- The sort `(a, b) => new Date(b.created_at) - new Date(a.created_at)`:
descending creation time.  `Array.prototype.sort` is stable, and a
stable sort is uniquely determined by the comparator, so this stable
insertion sort computes the same list. -/
def sortByCreatedDesc : List RawOrder → List RawOrder
  | [] => []
  | x :: xs => insertByCreatedDesc x (sortByCreatedDesc xs)

/-- `searchOrdersByCustomerName`: three query variants, union by
unique id, sort descending by creation time, keep at most 5; any
collaborator failure yields `[]`. -/
def searchOrdersByCustomerName (env : Env) (customerName : String) : List RawOrder :=
  match collectOrders env (nameQueries customerName) with
  | .error _ => []
  | .ok allOrders => (sortByCreatedDesc (dedupById allOrders)).take 5

/-! ## Conversation state store (lines 155-168)

`conversationStates` is a module-level `Map`; every
`updateConversationState` replaces the record (stamping `updatedAt`)
and schedules an unconditional `setTimeout` deletion of the user's key
30 minutes later.  Timers are never cancelled. -/

/-- The dialogue stages occurring in the source. -/
inductive Stage where
  | initial
  | waiting_for_name
  | waiting_for_order_selection
  | name_not_found
deriving DecidableEq, Repr

/-- A conversation-state record.  The JS records are ad-hoc object
literals; absent fields are `none`. -/
structure ConvState where
  stage : Stage
  intent : Option String := none
  possibleOrders : Option (List RawOrder) := none
  customerName : Option String := none
  attemptedName : Option String := none
  updatedAt : Option Nat := none
deriving DecidableEq, Repr

/-- The default record `{ stage: 'initial' }` returned for an absent
user. -/
def initialConv : ConvState := { stage := .initial }

/-- The store: current records plus the pending one-shot deletion
timers `(userId, fireTime)`. -/
structure StoreState where
  records : List (String × ConvState)
  timers : List (String × Nat)
deriving DecidableEq, Repr

/-- The empty store at process start. -/
def emptyStore : StoreState := ⟨[], []⟩

/-- The 30-minute expiry window, in milliseconds. -/
def stateTTL : Nat := 30 * 60 * 1000

/-- `getConversationState`: `map.get(userId) || { stage: 'initial' }`. -/
def getConversationState (st : StoreState) (userId : String) : ConvState :=
  match st.records.lookup userId with
  | some s => s
  | none => initialConv

/-- `updateConversationState` at time `now`: replace the record with
`{ ...state, updatedAt: now }` and schedule one more deletion timer at
`now + 30min`, leaving existing timers in place. -/
def updateConversationState (st : StoreState) (now : Nat) (userId : String)
    (state : ConvState) : StoreState :=
  { records := (userId, { state with updatedAt := some now }) ::
      st.records.filter (fun p => p.1 ≠ userId),
    timers := (userId, now + stateTTL) :: st.timers }

/-- Fire every timer due at time `now`: each due timer deletes its
user's record unconditionally (the latent stacked-timer behavior of
the source) and is consumed. -/
def fireDueTimers (st : StoreState) (now : Nat) : StoreState :=
  let due := st.timers.filter (fun p => p.2 ≤ now)
  { records := st.records.filter (fun r => ¬ due.any (fun d => d.1 = r.1)),
    timers := st.timers.filter (fun p => ¬ p.2 ≤ now) }

/-! ## Status labels (`getStatusInJapanese`, lines 908-921) -/

/-- The fixed status table.  The JS object key `null:` is the string
key `"null"`, which is exactly what `statusMap[status]` looks up when
`status` is `null`. -/
def statusMapTable : List (String × String) :=
  [("null", "処理中"), ("pending", "保留中"), ("fulfilled", "発送済み"),
   ("partial", "一部発送済み"), ("restocked", "返品済み"), ("paid", "支払い済み"),
   ("partially_paid", "一部支払い済み"), ("refunded", "返金済み"),
   ("voided", "キャンセル済み")]

/-- `statusMap[status] || status || '確認中'`.  A `null` status hits
the `"null"` key; an unmapped non-empty status falls through `||` to
itself; only an empty (or absent-and-unmapped) status reaches the
default. -/
def getStatusInJapanese (status : Option String) : String :=
  let key := match status with | none => "null" | some s => s
  match statusMapTable.lookup key with
  | some label => label
  | none =>
    match status with
    | none => "確認中"
    | some s => if s = "" then "確認中" else s

/-! ## Message templates and formatting (`generateAIResponse` and
`formatOrderStatusMessage`) -/

/-- Abstraction of `new Date(t).toLocaleDateString('ja-JP')`.  No
property below depends on the rendered text, only on the underlying
timestamps, so the locale rendering is abstracted to decimal. -/
def jpDate (t : Nat) : String := toString t

/-- JS `x || default` on an optional string (both `null` and the empty
string are falsy). -/
def jsOrElse (x : Option String) (dflt : String) : String :=
  match x with
  | none => dflt
  | some s => if s = "" then dflt else s

/-- JS truthiness of an optional string slot (`null` and `""` are
falsy). -/
def truthyStr (x : Option String) : Bool :=
  match x with
  | none => false
  | some s => s ≠ ""

/-- `parseInt(s)` on an already-trimmed string: optional sign, then
the leading digit run; `none` is `NaN`. -/
def parseIntJS (s : String) : Option Int :=
  let core : List Char → Option Nat := fun cs =>
    let run := digitRun cs
    if run = [] then none
    else some (run.foldl (fun acc c => acc * 10 + (c.toNat - '0'.toNat)) 0)
  match s.data with
  | '-' :: rest => (core rest).map (fun n => -(n : Int))
  | '+' :: rest => (core rest).map (fun n => (n : Int))
  | cs => (core cs).map (fun n => (n : Int))

/-- Stage-1 reply asking for the customer's full name (lines 441-445). -/
def askNameMessage : String :=
  "発送状況を確認させていただきます📦\n\nお手数ですが、ご注文時のお名前をフルネームで教えていただけますでしょうか？\n\n（例：山田太郎）"

/-- Name-not-found reply (lines 485-491). -/
def nameNotFoundMessage (customerName : String) : String :=
  "申し訳ございません。" ++ customerName ++
  "様のお名前でご注文が見つかりませんでした。\n\n以下をご確認いただけますでしょうか：\n・ご注文時と同じお名前（漢字・カナ）でしょうか？\n・最近のご注文でしょうか？\n\nもう一度お名前を教えていただくか、注文番号がお分かりでしたら教えてください。"

/-- One numbered entry of the disambiguation list (lines 470-473).
`order.line_items[0].name` is evaluated under the caller's guard that
the list is non-empty. -/
def orderListEntry (idx : Nat) (o : RawOrder) : String :=
  toString (idx + 1) ++ ". 注文番号 #" ++ toString o.order_number ++
  "\n   注文日: " ++ jpDate o.created_at ++ "\n   商品: " ++
  (match o.line_items with | [] => "" | i :: _ => i.name) ++
  (if 1 < o.line_items.length then " 他" ++ toString (o.line_items.length - 1) ++ "点" else "")

/-- The multi-candidate disambiguation reply (lines 466-476). -/
def orderSelectionMessage (customerName : String) (orders : List RawOrder) : String :=
  customerName ++
  "様のご注文が複数見つかりました。\n\nどちらの注文についてお調べしましょうか？\n\n" ++
  String.intercalate "\n\n" (orders.enum.map (fun p => orderListEntry p.1 p.2)) ++
  "\n\n番号でお答えいただくか、注文番号を教えてください。"

/-- `formatOrderStatusMessage` (lines 694-732) applied to a raw
Shopify order, which is what reaches it on the `possibleOrders`
paths.  `order.order_number || order.name` falls back on a zero
number; a `null` customer renders as `undefined undefined`. -/
def formatOrderStatusMessage (o : RawOrder) : String :=
  let numberText := if o.order_number ≠ 0 then toString o.order_number else o.name
  let custText := match o.customer with
    | some c => c.first_name ++ " " ++ c.last_name
    | none => "undefined undefined"
  let base :=
    "📦 発送状況のご確認\n\n【ご注文情報】\n注文番号: #" ++ numberText ++
    "\n注文日: " ++ jpDate o.created_at ++ "\nお客様名: " ++ custText ++
    " 様\n\n【配送状況】\nステータス: " ++ getStatusInJapanese o.fulfillment_status ++ "\n"
  let withTracking :=
    match o.fulfillments with
    | f :: _ =>
      base ++ "\n【配送詳細】\n配送業者: " ++ jsOrElse f.tracking_company "確認中" ++
      "\n追跡番号: " ++ jsOrElse f.tracking_number "準備中" ++
      (if truthyStr f.tracking_url then "\n追跡URL: " ++ (f.tracking_url.getD "") else "") ++
      "\n発送日: " ++ jpDate f.created_at ++ "\nお届け予定: 発送から2-3営業日"
    | [] =>
      if o.fulfillment_status = none then
        base ++ "\n現在、発送準備中です。\n発送が完了しましたら、追跡番号と共にお知らせいたします。"
      else base
  withTracking ++ "\n\nご不明な点がございましたら、お気軽にお問い合わせください😊"

/-- `formatOrderStatusMessage` applied to the normalized summary of
`getOrderDetails` (the `context.orderInfo` short-circuit, line 509).
The summary has none of the snake_case fields the formatter reads
(`order_number`, `name`, `created_at`, `customer.first_name`,
`fulfillment_status`, `fulfillments`), so every interpolation sees
`undefined`: the output is this constant string. -/
def formatOrderSummaryMessage (_s : OrderSummary) : String :=
  "📦 発送状況のご確認\n\n【ご注文情報】\n注文番号: #undefined\n注文日: Invalid Date\nお客様名: undefined undefined 様\n\n【配送状況】\nステータス: 確認中\n\n\nご不明な点がございましたら、お気軽にお問い合わせください😊"

/-- Canned 配送・発送 reply without an order number (lines 515-518). -/
def shippingAskMessage : String :=
  "発送状況を確認させていただきます📦\n\nご注文番号、またはご注文時のお名前を教えていただけますでしょうか？"

/-- Canned 配送・発送 reply with an order number (line 520). -/
def shippingCheckMessage (orderNumber : String) : String :=
  "注文番号 #" ++ orderNumber ++ " の配送状況を確認いたします。少々お待ちください。"

/-- Canned 在庫 reply (lines 523-527). -/
def stockMessage : String :=
  "在庫確認を承りました。\n\nどちらの商品の在庫をお調べいたしましょうか？\n商品名またはURLを教えていただけますでしょうか。"

/-- Business-hours information (lines 531-541). -/
def businessInfoMessage : String :=
  "【営業時間のご案内】\n平日：9:00-18:00\n土日祝：お休み\n\nお電話でのお問い合わせ：\n03-1234-5678\n\nメールでのお問い合わせ：\nsupport@hirunegao.com\n\nお急ぎの場合は、お電話でのお問い合わせをお勧めいたします。"

/-- Greeting reply (lines 549-557). -/
def greetingMessage : String :=
  "こんにちは！昼寝のソムリエshop HIRUNEGAOです😊\n\n本日はどのようなご用件でしょうか？\n・ご注文の確認\n・商品について\n・発送状況の確認\n・その他のお問い合わせ\n\nお気軽にお申し付けください。"

/-- The greeting alternation
`/こんにち[はわ]|おはよう|こんばん[はわ]|はじめまして/`. -/
def greetingWords : List String :=
  ["こんにちは", "こんにちわ", "おはよう", "こんばんは", "こんばんわ", "はじめまして"]

/-- Canned 営業・その他 reply (lines 530-561). -/
def businessMessage (message : String) : String :=
  if containsStr message "営業時間" then businessInfoMessage
  else if greetingWords.any (fun w => containsStr message w) then greetingMessage
  else businessInfoMessage

/-- Canned キャンセル・返品 reply (lines 563-573). -/
def cancelMessage : String :=
  "キャンセル・返品についてのお問い合わせですね。\n\n大変恐れ入りますが、キャンセル・返品については担当者が詳細を確認させていただく必要がございます。\n\n以下の情報を教えていただけますでしょうか：\n・ご注文番号\n・キャンセル/返品の理由\n\n担当者より1営業日以内にご連絡させていただきます。"

/-- Canned 支払い reply (lines 575-584). -/
def paymentMessage : String :=
  "お支払いについてのご案内です💳\n\n【ご利用可能な決済方法】\n・クレジットカード（VISA/Master/JCB/AMEX）\n・銀行振込\n・代金引換（手数料330円）\n・コンビニ決済\n\nお支払いに関してご不明な点がございましたら、詳しくお聞かせください。"

/-- Canned 商品 reply (lines 587-597). -/
def productMessage : String :=
  "商品についてのお問い合わせありがとうございます。\n\nどちらの商品についてお知りになりたいでしょうか？\n・商品名\n・サイズや仕様\n・価格\n・在庫状況\n\n具体的な商品名を教えていただければ、詳しくご案内させていただきます。"

/-- Loyalty acknowledgment appended for returning customers
(line 606). -/
def loyaltyNote : String :=
  "\n\n※過去にもお問い合わせいただいているお客様ですね。いつもご利用ありがとうございます。"

/-- Clarification substituted for a hand-off LLM reply (lines 657-665). -/
def clarificationMessage : String :=
  "ご質問ありがとうございます。\n\nもう少し詳しくお聞かせいただけますでしょうか？\n例えば：\n・ご注文について → 注文番号をお教えください\n・商品について → 商品名をお教えください\n・配送について → いつ頃のご注文でしょうか\n\nお客様のご要望に合わせてご案内させていただきます😊"

/-- Escalation notice appended when `requiresHumanReview` (line 670). -/
def escalationNote : String :=
  "\n\n※こちらの件は担当者からも改めてご連絡させていただきます。"

/-- Category-keyed fallback strings of the `catch` branch
(lines 679-686). -/
def fallbackResponses : List (String × String) :=
  [("配送・発送", "発送状況の確認には注文番号が必要です。注文番号をお教えいただけますでしょうか？"),
   ("在庫", "在庫確認をいたします。商品名を教えていただけますでしょうか？"),
   ("営業・その他", "営業時間：平日9:00-18:00\nお電話：03-1234-5678\nメール：support@hirunegao.com"),
   ("キャンセル・返品", "返品は商品到着後7日以内に承っております。注文番号と理由をお教えください。"),
   ("支払い", "クレジットカード、銀行振込、代引き、コンビニ決済がご利用いただけます。"),
   ("商品", "どちらの商品についてお知りになりたいでしょうか？")]

/-- Generic clarification request of the `catch` branch (line 689). -/
def genericFallback : String :=
  "お問い合わせありがとうございます。もう少し詳しくお聞かせいただけますでしょうか？"

/-! ## Context builder (`analyzeMessage`, lines 102-152) -/

/-- The per-message `Context` object.  `handleEvent` adds `userId`
right after `analyzeMessage` returns; the embedding fills it in
directly. -/
structure Context where
  orderNumber : Option String
  orderInfo : Option OrderSummary
  category : String
  requiresHumanReview : Bool
  customerHistory : List PastInquiry
  customerName : Option String
  possibleOrders : Option (List RawOrder)
  conversationState : ConvState
  userId : String
deriving DecidableEq, Repr

/-- `getCustomerHistory`: the Notion query with failure caught to `[]`
(lines 309-333). -/
def getCustomerHistory (env : Env) : List PastInquiry :=
  match env.history with
  | .error _ => []
  | .ok l => l

/-- `analyzeMessage`: build the per-message context.  An extracted
order number short-circuits the name-based search (`if/else if`,
lines 138-143); the name search runs only with a truthy extracted
name. -/
def analyzeMessage (env : Env) (message : String) (userId : String)
    (store : StoreState) : Context :=
  let orderNumber := extractOrderNumber message
  let customerName := extractCustomerName message
  let orderInfo :=
    match orderNumber with
    | some n => getOrderDetails env n
    | none => none
  let possibleOrders :=
    match orderNumber with
    | some _ => none
    | none =>
      if truthyStr customerName then
        some (searchOrdersByCustomerName env (customerName.getD ""))
      else none
  let category := categorizeMessage message
  { orderNumber := orderNumber, orderInfo := orderInfo, category := category,
    requiresHumanReview := shouldEscalateToHuman message category,
    customerHistory := getCustomerHistory env, customerName := customerName,
    possibleOrders := possibleOrders,
    conversationState := getConversationState store userId, userId := userId }

/-! ## Dialogue engine (`generateAIResponse`, lines 423-691)

The body is modeled as a function returning `Except Unit String`
paired with the (possibly updated) store: `Except.error` is a thrown
exception reaching the surrounding `catch`, and state written before
the throw survives, exactly as the module-level `Map` does. -/

/-- The `categoryResponses` dispatch table (lines 513-598), an object
literal keyed by category whose values close over `message` and
`context`. -/
def categoryResponses : List (String × (String → Context → String)) :=
  [("配送・発送", fun _ ctx =>
      if ¬ truthyStr ctx.orderNumber then shippingAskMessage
      else shippingCheckMessage (ctx.orderNumber.getD "")),
   ("在庫", fun _ _ => stockMessage),
   ("営業・その他", fun msg _ => businessMessage msg),
   ("キャンセル・返品", fun _ _ => cancelMessage),
   ("支払い", fun _ _ => paymentMessage),
   ("商品", fun _ _ => productMessage)]

/-- `categoryResponses[context.category]` evaluated at the message and
context. -/
def cannedFor (message : String) (ctx : Context) : Option String :=
  (categoryResponses.lookup ctx.category).map (fun f => f message ctx)

/-- The shipping-inquiry state machine (lines 432-505), evaluated only
under `category === '配送・発送' && !orderNumber && !orderInfo`.
Returns `none` on fall-through (no early `return` fired). -/
def shippingFlow (message : String) (ctx : Context) (store : StoreState)
    (now : Nat) (cs : ConvState) : Option (Except Unit String × StoreState) :=
  if cs.stage = .initial then
    some (.ok askNameMessage,
      updateConversationState store now ctx.userId
        { stage := .waiting_for_name, intent := some "shipping_inquiry" })
  else if cs.stage = .waiting_for_name ∧ truthyStr ctx.customerName then
    match ctx.possibleOrders with
    | some (o :: rest) =>
      if rest = [] then
        some (.ok (formatOrderStatusMessage o),
          updateConversationState store now ctx.userId { stage := .initial })
      else
        -- state is written before the reply template runs; an empty
        -- `line_items` then throws on `line_items[0].name`
        let store' := updateConversationState store now ctx.userId
          { stage := .waiting_for_order_selection,
            possibleOrders := some (o :: rest),
            customerName := ctx.customerName }
        if (o :: rest).any (fun x => x.line_items.isEmpty) then
          some (.error (), store')
        else
          some (.ok (orderSelectionMessage (ctx.customerName.getD "") (o :: rest)), store')
    | _ =>
      some (.ok (nameNotFoundMessage (ctx.customerName.getD "")),
        updateConversationState store now ctx.userId
          { stage := .name_not_found, attemptedName := ctx.customerName })
  else if cs.stage = .waiting_for_order_selection then
    match parseIntJS (jsTrim message) with
    | some v =>
      if v ≠ 0 then
        match cs.possibleOrders with
        | some l =>
          if h : 1 ≤ v ∧ v ≤ l.length then
            some (.ok (formatOrderStatusMessage (l.get ⟨(v - 1).toNat, by omega⟩)),
              updateConversationState store now ctx.userId { stage := .initial })
          else none
        | none => none
      else none
    | none => none
  else none

/-- The body of `generateAIResponse` before its `catch`: the shipping
state machine, the `orderInfo` short-circuit, the canned category
table (with the loyalty note), then the LLM call with the hand-off
substitution and the escalation notice. -/
def generateAIResponseBody (env : Env) (message : String) (ctx : Context)
    (store : StoreState) (now : Nat) : Except Unit String × StoreState :=
  let cs := getConversationState store ctx.userId
  match
    (if ctx.category = "配送・発送" ∧ ¬ truthyStr ctx.orderNumber ∧ ctx.orderInfo = none
     then shippingFlow message ctx store now cs
     else none) with
  | some r => r
  | none =>
    match ctx.orderInfo with
    | some info => (.ok (formatOrderSummaryMessage info), store)
    | none =>
      match cannedFor message ctx with
      | some r =>
        if ctx.customerHistory ≠ [] then (.ok (r ++ loyaltyNote), store)
        else (.ok r, store)
      | none =>
        match env.llm with
        | .error e => (.error e, store)
        | .ok resp =>
          let r1 := if containsStr resp "担当者よりご連絡" ∧ ¬ ctx.requiresHumanReview
                    then clarificationMessage else resp
          let r2 := if ctx.requiresHumanReview then r1 ++ escalationNote else r1
          (.ok r2, store)

/-- `generateAIResponse` with its `catch`: a throw anywhere in the
body degrades to the category-keyed fallback (or the generic
clarification request); the function always returns a reply string. -/
def generateAIResponse (env : Env) (message : String) (ctx : Context)
    (store : StoreState) (now : Nat) : String × StoreState :=
  match generateAIResponseBody env message ctx store now with
  | (.ok r, st) => (r, st)
  | (.error _, st) => ((fallbackResponses.lookup ctx.category).getD genericFallback, st)

/-- One webhook turn of `handleEvent` restricted to the core: build
the context, generate the reply, thread the store.  (Profile lookup,
the Notion append and LINE delivery are plumbing outside the core.) -/
def handleTurn (env : Env) (userId : String) (message : String)
    (store : StoreState) (now : Nat) : String × StoreState :=
  let ctx := analyzeMessage env message userId store
  generateAIResponse env message ctx store now

/-! ## Concrete fixtures used by the evaluation theorems and witnesses -/

/-- A concrete Shopify customer named 山田太郎. -/
def cust1 : CustomerInfo :=
  { id := 1, first_name := "太郎", last_name := "山田", email := "t@example.com" }

/-- A concrete raw order (newest). -/
def ordA : RawOrder :=
  { id := 11, order_number := 1001, name := "#1001", financial_status := "paid",
    fulfillment_status := some "fulfilled", created_at := 300, total_price := "5000",
    currency := "JPY", line_items := [{ name := "昼寝枕", quantity := 1, price := "5000" }],
    customer := some cust1, shipping_address := "東京", fulfillments := [] }

/-- A concrete raw order (middle). -/
def ordB : RawOrder :=
  { ordA with id := 12, order_number := 1002, name := "#1002", created_at := 200 }

/-- A concrete raw order (oldest). -/
def ordC : RawOrder :=
  { ordA with id := 13, order_number := 1003, name := "#1003", created_at := 100 }

/-- Collaborators where the name 山田 resolves to exactly one order and
the LLM succeeds. -/
def envOne : Env :=
  { ordersByName := fun _ => .ok [],
    searchCustomers := fun q => if q = "山田" ∨ q = "山" ∨ q = "田" then .ok [cust1] else .ok [],
    ordersByCustomer := fun cid => if cid = 1 then .ok [ordA] else .ok [],
    history := .ok [],
    llm := .ok "ご質問ありがとうございます。商品ページをご覧ください。" }

/-- Same collaborators but 山田 has three orders. -/
def envThree : Env :=
  { envOne with ordersByCustomer := fun cid => if cid = 1 then .ok [ordA, ordB, ordC] else .ok [] }

/-- Collaborators whose LLM call fails. -/
def envFail : Env := { envOne with llm := .error () }

/-- A context requiring human review on a category outside the canned
table. -/
def ctxEsc : Context :=
  { orderNumber := none, orderInfo := none, category := "その他",
    requiresHumanReview := true, customerHistory := [], customerName := none,
    possibleOrders := none, conversationState := initialConv, userId := "W3" }

/-- A plain context on a category outside the canned table. -/
def ctxPlain : Context :=
  { ctxEsc with requiresHumanReview := false, userId := "W8" }

/-! ## Helper lemmas -/

theorem isSuffixOf_data_append (a b : String) :
    b.data.isSuffixOf (a ++ b).data = true := by
  unfold List.isSuffixOf
  rw [String.data_append, List.reverse_append, List.isPrefixOf_iff_prefix]
  exact List.prefix_append _ _

theorem findSome?_isSome_of_mem {α β : Type} {l : List α} {f : α → Option β} {a : α}
    (ha : a ∈ l) (h : (f a).isSome = true) : (l.findSome? f).isSome = true := by
  induction l with
  | nil => cases ha
  | cons x xs ih =>
    rw [List.findSome?_cons]
    cases hfx : f x with
    | some b => simp
    | none =>
      rcases List.mem_cons.mp ha with h1 | h2
      · rw [h1, hfx] at h; simp at h
      · exact ih h2

theorem scanFor_isSome_append {α : Type} (f : List Char → Option α) (l t : List Char)
    (h : (f t).isSome = true) : (scanFor f (l ++ t)).isSome = true := by
  induction l with
  | nil =>
    rw [List.nil_append]
    cases t with
    | nil => simpa [scanFor] using h
    | cons c cs =>
      rw [scanFor]
      cases hfx : f (c :: cs) with
      | some r => simp
      | none => rw [hfx] at h; simp at h
  | cons c cs ih =>
    rw [List.cons_append, scanFor]
    cases hfx : f (c :: (cs ++ t)) with
    | some r => simp
    | none => exact ih

theorem exists_last_two {l : List Char} (h : 2 ≤ l.length) :
    ∃ l₀ a b, l = l₀ ++ [a, b] := by
  induction l with
  | nil => simp at h
  | cons x xs ih =>
    cases xs with
    | nil => simp at h
    | cons y ys =>
      cases ys with
      | nil => exact ⟨[], x, y, rfl⟩
      | cons z zs =>
        obtain ⟨l₀, a, b, hl⟩ := ih (by simp)
        exact ⟨x :: l₀, a, b, by rw [List.cons_append, ← hl]⟩

theorem lookup_eq_none_of_ne {β : Type} {l : List (String × β)} {u : String}
    (h : ∀ p ∈ l, p.1 ≠ u) : l.lookup u = none := by
  induction l with
  | nil => rfl
  | cons p ps ih =>
    obtain ⟨k, v⟩ := p
    rw [List.lookup_cons]
    have hb : (u == k) = false :=
      beq_eq_false_iff_ne.mpr (fun he => h (k, v) (by simp) (by simp [he.symm]))
    rw [hb]
    exact ih (fun q hq => h q (List.mem_cons_of_mem _ hq))

/-! ## C6: order-number extraction and the `#1234` claim -/

/-- C6 (counterexample): the message `"#12345"` contains the substring
`"#1234"`, yet `extractOrderNumber` returns `"12345"`, not `"1234"` —
the greedy `#(\d+)` capture takes the whole digit run.  The claim as
universally stated is therefore false. -/
theorem C6_counterexample :
    containsSub "#1234".data "#12345".data = true
    ∧ extractOrderNumber "#12345" = some "12345"
    ∧ ("12345" : String) ≠ "1234" := by
  refine ⟨by decide, by decide, by decide⟩

/-- C6 (amended): whenever the `#digits` pattern — tried first —
matches the message, its capture is the extraction result, regardless
of any other digit runs or later patterns; in particular a message
whose leftmost `#`-digits occurrence captures exactly `1234` yields
`"1234"`. -/
theorem C6_amended_first_hash (message : String) (cap : List Char)
    (h : scanFor hashMatchAt message.data = some cap) :
    extractOrderNumber message = some ⟨cap⟩ := by
  unfold extractOrderNumber orderPatterns
  rw [List.findSome?_cons, h]
  rfl

/-- Witness for C6: a concrete message with digit runs `0901234` and
`5678` elsewhere still extracts `"1234"` from its `#1234` occurrence. -/
theorem C6_amended_first_hash_witness :
    scanFor hashMatchAt "TEL 0901234 から #1234 他 5678".data = some "1234".data
    ∧ extractOrderNumber "TEL 0901234 から #1234 他 5678" = some "1234" :=
  ⟨by decide, C6_amended_first_hash "TEL 0901234 から #1234 他 5678" "1234".data (by decide)⟩

/-! ## C7: fulfillment-status labels -/

/-- C7 (counterexample): an unmapped status code is echoed back, not
replaced by the default `確認中`, and the `null` status hits the
`"null"` table key and yields `処理中`, not `確認中`. -/
theorem C7_counterexample :
    statusMapTable.lookup "shipped" = none
    ∧ getStatusInJapanese (some "shipped") = "shipped"
    ∧ getStatusInJapanese none = "処理中"
    ∧ ("shipped" : String) ≠ "確認中"
    ∧ ("処理中" : String) ≠ "確認中" := by
  refine ⟨by decide, by decide, by decide, by decide, by decide⟩

/-- C7 (amended): every status code in the fixed table maps to its
label; the `null` status maps — through the `"null"` object key — to
`処理中`; a status code outside the table is returned unchanged when
non-empty; only the empty status code yields the default `確認中`. -/
theorem C7_amended_status_table :
    (∀ k v, statusMapTable.lookup k = some v → getStatusInJapanese (some k) = v)
    ∧ getStatusInJapanese none = "処理中"
    ∧ (∀ s, statusMapTable.lookup s = none → s ≠ "" → getStatusInJapanese (some s) = s)
    ∧ getStatusInJapanese (some "") = "確認中" := by
  refine ⟨?_, by decide, ?_, by decide⟩
  · intro k v h
    simp [getStatusInJapanese, h]
  · intro s h hne
    simp [getStatusInJapanese, h, hne]

/-- Witness for C7 at the concrete code `"pending"` and the unmapped
code `"shipped"`. -/
theorem C7_amended_status_table_witness :
    statusMapTable.lookup "pending" = some "保留中"
    ∧ getStatusInJapanese (some "pending") = "保留中"
    ∧ getStatusInJapanese (some "shipped") = "shipped" :=
  ⟨by decide, C7_amended_status_table.1 "pending" "保留中" (by decide),
   C7_amended_status_table.2.2.1 "shipped" (by decide) (by decide)⟩

/-! ## C1: the shipping round trip -/

set_option maxRecDepth 10000 in
/-- C1 (code evaluation at the failing input): on a fresh user, the
shipping message `発送について` does yield the ask-for-name reply and
stage `waiting_for_name`; but the follow-up bare name `山田` — for
which the resolver returns exactly one order — classifies as `その他`,
so the `waiting_for_name` handler (guarded by the shipping category)
never runs: the reply is the generic LLM text, not the formatted
order status, and the stage stays `waiting_for_name` instead of
resetting to `initial`. -/
theorem C1_roundtrip_evaluation :
    (handleTurn envOne "U1" "発送について" emptyStore 0).1 = askNameMessage
    ∧ (getConversationState (handleTurn envOne "U1" "発送について" emptyStore 0).2 "U1").stage
        = Stage.waiting_for_name
    ∧ extractCustomerName "山田" = some "山田"
    ∧ searchOrdersByCustomerName envOne "山田" = [ordA]
    ∧ categorizeMessage "山田" = "その他"
    ∧ (handleTurn envOne "U1" "山田"
        (handleTurn envOne "U1" "発送について" emptyStore 0).2 1000).1
        ≠ formatOrderStatusMessage ordA
    ∧ (getConversationState (handleTurn envOne "U1" "山田"
        (handleTurn envOne "U1" "発送について" emptyStore 0).2 1000).2 "U1").stage
        = Stage.waiting_for_name := by
  refine ⟨by decide, by decide, by decide, by decide, by decide, by decide, by decide⟩

/-! ## C2: order disambiguation and the numeric selection -/

set_option maxRecDepth 40000 in
/-- C2 (code evaluation at the failing input): after the name message
stores three candidates (listed in descending creation date) in stage
`waiting_for_order_selection`, the follow-up message `"2"` parses as
the integer 2 but classifies as `その他`, so the selection handler
(guarded by the shipping category) never runs: the reply is the
generic LLM text, not the status of the second-listed order, and the
stage stays `waiting_for_order_selection`. -/
theorem C2_selection_evaluation :
    (getConversationState (handleTurn envThree "U2" "山田です。いつ届きますか"
        (handleTurn envThree "U2" "発送について" emptyStore 0).2 1000).2 "U2")
      = { stage := .waiting_for_order_selection, possibleOrders := some [ordA, ordB, ordC],
          customerName := some "山田", updatedAt := some 1000 }
    ∧ (handleTurn envThree "U2" "山田です。いつ届きますか"
        (handleTurn envThree "U2" "発送について" emptyStore 0).2 1000).1
      = orderSelectionMessage "山田" [ordA, ordB, ordC]
    ∧ ordB.created_at ≤ ordA.created_at ∧ ordC.created_at ≤ ordB.created_at
    ∧ parseIntJS (jsTrim "2") = some 2
    ∧ categorizeMessage "2" = "その他"
    ∧ (handleTurn envThree "U2" "2"
        (handleTurn envThree "U2" "山田です。いつ届きますか"
          (handleTurn envThree "U2" "発送について" emptyStore 0).2 1000).2 2000).1
      ≠ formatOrderStatusMessage ordB
    ∧ (getConversationState (handleTurn envThree "U2" "2"
        (handleTurn envThree "U2" "山田です。いつ届きますか"
          (handleTurn envThree "U2" "発送について" emptyStore 0).2 1000).2 2000).2 "U2").stage
      = Stage.waiting_for_order_selection := by
  refine ⟨by decide, by decide, by decide, by decide, by decide, by decide, by decide,
    by decide⟩

/-! ## C3: the escalation notice -/

/-- C3 (counterexample): the message `キャンセル` forces
`requiresHumanReview = true`, yet the reply — produced by the canned
category table — does not end with the escalation notice: the notice
is appended only in the LLM branch, not in every branch. -/
theorem C3_counterexample :
    (analyzeMessage envOne "キャンセル" "U3" emptyStore).requiresHumanReview = true
    ∧ (generateAIResponse envOne "キャンセル"
        (analyzeMessage envOne "キャンセル" "U3" emptyStore) emptyStore 0).1 = cancelMessage
    ∧ escalationNote.data.isSuffixOf cancelMessage.data = false := by
  refine ⟨by decide, by decide, by decide⟩

/-- C3 (amended): the escalation notice is appended exactly in the
branch that reaches a successful LLM call — for every context with
`requiresHumanReview = true`, no resolved order info and a category
outside the canned table, the reply ends with the notice. -/
theorem C3_amended_notice (env : Env) (message : String) (ctx : Context)
    (store : StoreState) (now : Nat) (s : String)
    (hcanned : categoryResponses.lookup ctx.category = none)
    (hinfo : ctx.orderInfo = none)
    (hllm : env.llm = .ok s)
    (hrhr : ctx.requiresHumanReview = true) :
    escalationNote.data.isSuffixOf
      (generateAIResponse env message ctx store now).1.data = true := by
  have hcat : ctx.category ≠ "配送・発送" := by
    intro hc
    rw [hc] at hcanned
    simp [categoryResponses, List.lookup] at hcanned
  have hbody : generateAIResponseBody env message ctx store now
      = (.ok (s ++ escalationNote), store) := by
    simp [generateAIResponseBody, cannedFor, hcat, hinfo, hcanned, hllm, hrhr]
  unfold generateAIResponse
  rw [hbody]
  exact isSuffixOf_data_append s escalationNote

/-- Witness for C3's amended statement at a concrete escalating
context with a successful LLM call. -/
theorem C3_amended_notice_witness :
    categoryResponses.lookup ctxEsc.category = none
    ∧ ctxEsc.orderInfo = none
    ∧ envOne.llm = .ok "ご質問ありがとうございます。商品ページをご覧ください。"
    ∧ ctxEsc.requiresHumanReview = true
    ∧ escalationNote.data.isSuffixOf
        (generateAIResponse envOne "確認お願いします" ctxEsc emptyStore 0).1.data = true :=
  ⟨rfl, rfl, rfl, rfl,
   C3_amended_notice envOne "確認お願いします" ctxEsc emptyStore 0
     "ご質問ありがとうございます。商品ページをご覧ください。" rfl rfl rfl rfl⟩

/-! ## C8: LLM-failure fallback -/

/-- C8: when the LLM collaborator fails on a context that reaches it
(no resolved order info, category outside the canned table), the
engine returns the category-keyed fallback string — the generic
clarification request when the category has no fallback entry — with
the store untouched, even though the body raised; the `catch` makes
the entry point total. -/
theorem C8_llm_failure_fallback (env : Env) (message : String) (ctx : Context)
    (store : StoreState) (now : Nat)
    (hcanned : categoryResponses.lookup ctx.category = none)
    (hinfo : ctx.orderInfo = none)
    (hllm : env.llm = .error ()) :
    generateAIResponse env message ctx store now
      = ((fallbackResponses.lookup ctx.category).getD genericFallback, store)
    ∧ (generateAIResponseBody env message ctx store now).1 = .error () := by
  have hcat : ctx.category ≠ "配送・発送" := by
    intro hc
    rw [hc] at hcanned
    simp [categoryResponses, List.lookup] at hcanned
  have hbody : generateAIResponseBody env message ctx store now = (.error (), store) := by
    simp [generateAIResponseBody, cannedFor, hcat, hinfo, hcanned, hllm]
  refine ⟨?_, by rw [hbody]⟩
  unfold generateAIResponse
  rw [hbody]

/-- Witness for C8 at a concrete `その他` context with a failing LLM
call: the generic clarification request comes back. -/
theorem C8_llm_failure_fallback_witness :
    categoryResponses.lookup ctxPlain.category = none
    ∧ envFail.llm = .error ()
    ∧ generateAIResponse envFail "送料は" ctxPlain emptyStore 0
        = ((fallbackResponses.lookup "その他").getD genericFallback, emptyStore)
    ∧ (generateAIResponseBody envFail "送料は" ctxPlain emptyStore 0).1 = .error () :=
  ⟨rfl, rfl,
   (C8_llm_failure_fallback envFail "送料は" ctxPlain emptyStore 0 rfl rfl rfl).1,
   (C8_llm_failure_fallback envFail "送料は" ctxPlain emptyStore 0 rfl rfl rfl).2⟩

/-! ## C9: order-number precedence in the context builder -/

/-- C9: when an order number is extracted, the built context never
carries `possibleOrders` (the name search is short-circuited by the
`if/else if`, and the context is independent of the name-search
collaborators); conversely `possibleOrders` is only ever populated
when no order number and a truthy customer name were extracted. -/
theorem C9_order_number_precedence (env env' : Env) (message userId : String)
    (store : StoreState) :
    (∀ n, extractOrderNumber message = some n →
      (analyzeMessage env message userId store).possibleOrders = none)
    ∧ ((analyzeMessage env message userId store).possibleOrders.isSome = true →
        extractOrderNumber message = none
        ∧ truthyStr (extractCustomerName message) = true)
    ∧ (env.ordersByName = env'.ordersByName → env.history = env'.history →
        (extractOrderNumber message).isSome = true →
        analyzeMessage env message userId store = analyzeMessage env' message userId store) := by
  refine ⟨?_, ?_, ?_⟩
  · intro n h
    simp [analyzeMessage, h]
  · intro h
    cases hx : extractOrderNumber message with
    | some n => simp [analyzeMessage, hx] at h
    | none =>
      refine ⟨rfl, ?_⟩
      by_cases ht : truthyStr (extractCustomerName message) = true
      · exact ht
      · simp [analyzeMessage, hx, ht] at h
  · intro hord hhist hsome
    obtain ⟨n, hn⟩ := Option.isSome_iff_exists.mp hsome
    simp only [analyzeMessage, hn]
    unfold getOrderDetails getCustomerHistory
    rw [hord, hhist]

/-- Witness for C9: `#1234です` extracts both an order number and a
truthy customer name, yet `possibleOrders` stays `none`. -/
theorem C9_order_number_precedence_witness :
    extractOrderNumber "#1234です" = some "1234"
    ∧ truthyStr (extractCustomerName "#1234です") = true
    ∧ (analyzeMessage envOne "#1234です" "W9" emptyStore).possibleOrders = none :=
  ⟨by decide, by decide,
   (C9_order_number_precedence envOne envOne "#1234です" "W9" emptyStore).1 "1234"
     (by decide)⟩

/-! ## C4: conversation-state store contract -/

/-- C4: reads never fail and default to the `initial` record; a `set`
replaces the record, stamps it with the current time, and schedules
one more 30-minute deletion timer; a subsequent `set` keeps the
previously scheduled timer (no cancellation); and once the last `set`
for a user is 30 minutes old, firing the due timers makes the next
`get` return the default record — indistinguishable from an absent
user. -/
theorem C4_store_contract (st : StoreState) (u : String) (s s0 : ConvState)
    (now t0 t : Nat)
    (habsent : st.records.lookup u = none) (ht : now + stateTTL ≤ t) :
    getConversationState st u = initialConv
    ∧ getConversationState (updateConversationState st now u s) u
        = { s with updatedAt := some now }
    ∧ (updateConversationState st now u s).timers = (u, now + stateTTL) :: st.timers
    ∧ (updateConversationState (updateConversationState st t0 u s0) now u s).timers
        = (u, now + stateTTL) :: (u, t0 + stateTTL) :: st.timers
    ∧ getConversationState (fireDueTimers (updateConversationState st now u s) t) u
        = initialConv := by
  refine ⟨?_, ?_, rfl, rfl, ?_⟩
  · unfold getConversationState
    rw [habsent]
  · unfold getConversationState updateConversationState
    simp [List.lookup_cons]
  · unfold getConversationState
    have hnone :
        (fireDueTimers (updateConversationState st now u s) t).records.lookup u = none := by
      apply lookup_eq_none_of_ne
      intro p hp
      unfold fireDueTimers updateConversationState at hp
      simp only [List.mem_filter] at hp
      obtain ⟨hmem, hpred⟩ := hp
      rcases List.mem_cons.mp hmem with rfl | hmem'
      · exfalso
        have hdue : ((((u, now + stateTTL) :: st.timers).filter
            (fun p => p.2 ≤ t)).any (fun d => d.1 = u)) = true := by
          rw [List.filter_cons]
          simp [ht]
        simp [hdue] at hpred
      · rw [List.mem_filter] at hmem'
        simpa using hmem'.2
    rw [hnone]

/-- Witness for C4 on the empty store: set at time 0, fire timers at
the 30-minute mark. -/
theorem C4_store_contract_witness :
    emptyStore.records.lookup "W4" = none
    ∧ 0 + stateTTL ≤ stateTTL
    ∧ getConversationState emptyStore "W4" = initialConv
    ∧ getConversationState
        (updateConversationState emptyStore 0 "W4" { stage := .waiting_for_name }) "W4"
        = { stage := .waiting_for_name, updatedAt := some 0 }
    ∧ getConversationState
        (fireDueTimers
          (updateConversationState emptyStore 0 "W4" { stage := .waiting_for_name })
          stateTTL) "W4"
        = initialConv :=
  have h := C4_store_contract emptyStore "W4" { stage := .waiting_for_name }
    { stage := .initial } 0 0 stateTTL rfl (by decide)
  ⟨rfl, by decide, h.1, h.2.1, h.2.2.2.2⟩

/-! ## C5: the name-based order resolver -/

theorem mem_insertByCreatedDesc {o x : RawOrder} {l : List RawOrder} :
    x ∈ insertByCreatedDesc o l ↔ x = o ∨ x ∈ l := by
  induction l with
  | nil => simp [insertByCreatedDesc]
  | cons y ys ih =>
    unfold insertByCreatedDesc
    by_cases hc : y.created_at ≤ o.created_at
    · rw [if_pos hc]
      simp [List.mem_cons]
    · rw [if_neg hc]
      simp only [List.mem_cons, ih]
      tauto

theorem pairwise_insertByCreatedDesc {o : RawOrder} {l : List RawOrder}
    (h : l.Pairwise (fun a b => b.created_at ≤ a.created_at)) :
    (insertByCreatedDesc o l).Pairwise (fun a b => b.created_at ≤ a.created_at) := by
  induction l with
  | nil => simp [insertByCreatedDesc]
  | cons y ys ih =>
    obtain ⟨hy, hys⟩ := List.pairwise_cons.mp h
    unfold insertByCreatedDesc
    by_cases hc : y.created_at ≤ o.created_at
    · rw [if_pos hc]
      refine List.pairwise_cons.mpr ⟨?_, h⟩
      intro z hz
      rcases List.mem_cons.mp hz with rfl | hz'
      · exact hc
      · exact le_trans (hy z hz') hc
    · rw [if_neg hc]
      refine List.pairwise_cons.mpr ⟨?_, ih hys⟩
      intro z hz
      rcases mem_insertByCreatedDesc.mp hz with rfl | hz'
      · omega
      · exact hy z hz'

theorem pairwise_sortByCreatedDesc (l : List RawOrder) :
    (sortByCreatedDesc l).Pairwise (fun a b => b.created_at ≤ a.created_at) := by
  induction l with
  | nil => simp [sortByCreatedDesc]
  | cons x xs ih => exact pairwise_insertByCreatedDesc ih

theorem perm_insertByCreatedDesc (o : RawOrder) (l : List RawOrder) :
    (insertByCreatedDesc o l).Perm (o :: l) := by
  induction l with
  | nil => exact List.Perm.refl _
  | cons y ys ih =>
    unfold insertByCreatedDesc
    by_cases hc : y.created_at ≤ o.created_at
    · rw [if_pos hc]
    · rw [if_neg hc]
      exact ((ih.cons y).trans (List.Perm.swap o y ys))

theorem perm_sortByCreatedDesc (l : List RawOrder) : (sortByCreatedDesc l).Perm l := by
  induction l with
  | nil => exact List.Perm.refl _
  | cons x xs ih =>
    exact (perm_insertByCreatedDesc x (sortByCreatedDesc xs)).trans (ih.cons x)

/-- Invariant of the JS `Map` fold: every stored value's id equals its
key, and the keys are distinct. -/
def DedupInv (acc : List (Nat × RawOrder)) : Prop :=
  (∀ p ∈ acc, p.2.id = p.1) ∧ (acc.map Prod.fst).Nodup

theorem foldl_inv {α β : Type} (P : β → Prop) (f : β → α → β)
    (hstep : ∀ b a, P b → P (f b a)) :
    ∀ (l : List α) (b : β), P b → P (l.foldl f b) := by
  intro l
  induction l with
  | nil => intro b hb; exact hb
  | cons x xs ih => intro b hb; exact ih (f b x) (hstep b x hb)

theorem mapUpsert_inv (acc : List (Nat × RawOrder)) (o : RawOrder)
    (h : DedupInv acc) : DedupInv (mapUpsert acc o) := by
  obtain ⟨hid, hnd⟩ := h
  unfold mapUpsert
  by_cases hc : (acc.any fun p => p.1 = o.id) = true
  · rw [if_pos hc]
    constructor
    · intro q hq
      obtain ⟨p, hp, hpq⟩ := List.mem_map.mp hq
      by_cases hpo : p.1 = o.id
      · rw [if_pos hpo] at hpq
        rw [← hpq]
        exact hpo.symm
      · rw [if_neg hpo] at hpq
        rw [← hpq]
        exact hid p hp
    · have : (acc.map (fun p => if p.1 = o.id then (p.1, o) else p)).map Prod.fst
          = acc.map Prod.fst := by
        rw [List.map_map]
        refine List.map_congr_left ?_
        intro p _
        by_cases hpo : p.1 = o.id
        · simp [hpo]
        · simp [hpo]
      rw [this]
      exact hnd
  · rw [if_neg hc]
    constructor
    · intro q hq
      rcases List.mem_append.mp hq with hq' | hq'
      · exact hid q hq'
      · rw [List.mem_singleton.mp hq']
    · rw [List.map_append]
      rw [List.nodup_append]
      refine ⟨hnd, by simp, ?_⟩
      intro x hx hx'
      simp only [List.map_cons, List.map_nil, List.mem_singleton] at hx'
      obtain ⟨p, hp, hpx⟩ := List.mem_map.mp hx
      apply hc
      rw [List.any_eq_true]
      exact ⟨p, hp, by simp [hpx, hx']⟩

theorem dedupById_nodup (l : List RawOrder) :
    ((dedupById l).map (fun o => o.id)).Nodup := by
  have h := foldl_inv DedupInv mapUpsert mapUpsert_inv l []
    ⟨by simp, by simp⟩
  obtain ⟨hid, hnd⟩ := h
  unfold dedupById
  rw [List.map_map]
  have : (l.foldl mapUpsert []).map ((fun o => o.id) ∘ Prod.snd)
      = (l.foldl mapUpsert []).map Prod.fst :=
    List.map_congr_left (fun p hp => hid p hp)
  rw [this]
  exact hnd

theorem ordersOfCustomers_congr (env env' : Env)
    (h : ∀ cid, env.ordersByCustomer cid = env'.ordersByCustomer cid) :
    ∀ cs, ordersOfCustomers env cs = ordersOfCustomers env' cs := by
  intro cs
  induction cs with
  | nil => rfl
  | cons c cs ih =>
    unfold ordersOfCustomers
    rw [h c.id, ih]

theorem collectOrders_congr (env env' : Env)
    (hords : ∀ cid, env.ordersByCustomer cid = env'.ordersByCustomer cid) :
    ∀ qs, (∀ q ∈ qs, env.searchCustomers q = env'.searchCustomers q) →
      collectOrders env qs = collectOrders env' qs := by
  intro qs
  induction qs with
  | nil => intro _; rfl
  | cons q qs ih =>
    intro hq
    unfold collectOrders
    rw [hq q (by simp)]
    refine congrArg _ (funext fun customers => ?_)
    rw [ordersOfCustomers_congr env env' hords customers]
    refine congrArg _ (funext fun mine => ?_)
    rw [ih (fun r hr => hq r (by simp [hr]))]

/-- C5: the resolver issues the customer search with exactly the three
name variants (as given, minus last character, minus first character)
— two environments agreeing on those three queries and on the
per-customer order lookup produce list-identical results, which is
also the idempotence claim for identical collaborator responses; a
failing collaborator call yields `[]`; and the result is sorted
descending by creation timestamp, has pairwise-distinct order ids
(union by unique id), and holds at most 5 orders. -/
theorem C5_resolver_contract (env env' : Env) (customerName : String)
    (h1 : env.searchCustomers customerName = env'.searchCustomers customerName)
    (h2 : env.searchCustomers (jsDropLast customerName)
        = env'.searchCustomers (jsDropLast customerName))
    (h3 : env.searchCustomers (jsDropFirst customerName)
        = env'.searchCustomers (jsDropFirst customerName))
    (h4 : ∀ cid, env.ordersByCustomer cid = env'.ordersByCustomer cid) :
    searchOrdersByCustomerName env customerName
        = searchOrdersByCustomerName env' customerName
    ∧ (collectOrders env (nameQueries customerName) = .error () →
        searchOrdersByCustomerName env customerName = [])
    ∧ (searchOrdersByCustomerName env customerName).Pairwise
        (fun a b => b.created_at ≤ a.created_at)
    ∧ ((searchOrdersByCustomerName env customerName).map (fun o => o.id)).Nodup
    ∧ (searchOrdersByCustomerName env customerName).length ≤ 5 := by
  refine ⟨?_, ?_, ?_, ?_, ?_⟩
  · unfold searchOrdersByCustomerName
    rw [collectOrders_congr env env' h4 (nameQueries customerName) ?_]
    intro q hq
    simp only [nameQueries, List.mem_cons, List.not_mem_nil, or_false] at hq
    rcases hq with rfl | rfl | rfl
    · exact h1
    · exact h2
    · exact h3
  · intro h
    unfold searchOrdersByCustomerName
    rw [h]
  · unfold searchOrdersByCustomerName
    cases collectOrders env (nameQueries customerName) with
    | error e => simp
    | ok allOrders =>
      exact List.Pairwise.sublist (List.take_sublist 5 _)
        (pairwise_sortByCreatedDesc (dedupById allOrders))
  · unfold searchOrdersByCustomerName
    cases collectOrders env (nameQueries customerName) with
    | error e => simp
    | ok allOrders =>
      have hsorted : ((sortByCreatedDesc (dedupById allOrders)).map
          (fun o => o.id)).Nodup :=
        (((perm_sortByCreatedDesc (dedupById allOrders)).map
          (fun o => o.id)).nodup_iff).mpr (dedupById_nodup allOrders)
      rw [List.map_take]
      exact List.Nodup.sublist (List.take_sublist 5 _) hsorted
  · unfold searchOrdersByCustomerName
    cases collectOrders env (nameQueries customerName) with
    | error e => simp
    | ok allOrders => simp [List.length_take_le]

/-- Witness for C5 at the three-order environment on the name 山田
(environment agreement discharged reflexively). -/
theorem C5_resolver_contract_witness :
    searchOrdersByCustomerName envThree "山田"
        = searchOrdersByCustomerName envThree "山田"
    ∧ (collectOrders envThree (nameQueries "山田") = .error () →
        searchOrdersByCustomerName envThree "山田" = [])
    ∧ (searchOrdersByCustomerName envThree "山田").Pairwise
        (fun a b => b.created_at ≤ a.created_at)
    ∧ ((searchOrdersByCustomerName envThree "山田").map (fun o => o.id)).Nodup
    ∧ (searchOrdersByCustomerName envThree "山田").length ≤ 5 :=
  C5_resolver_contract envThree envThree "山田" rfl rfl rfl (fun _ => rfl)

/-! ## C10: over-capture of the name extractor -/

theorem mem_optChar_self (x : Char) (cs : List Char) : cs ∈ optChar x cs := by
  cases cs with
  | nil => simp [optChar]
  | cons c t =>
    simp only [optChar]
    by_cases hc : c = x
    · simp [hc]
    · simp [hc]

theorem isPrefixOf_self_append (l t : List Char) : l.isPrefixOf (l ++ t) = true := by
  rw [List.isPrefixOf_iff_prefix]
  exact List.prefix_append _ _

theorem capSuffixAt_isSome {suf rest : List Char} (a b : Char)
    (hsuf : suf ∈ nameSuffixes1) (hda : dotChar a = true) (hdb : dotChar b = true) :
    (capSuffixAt nameSuffixes1 (a :: b :: (suf ++ rest))).isSome = true := by
  unfold capSuffixAt
  apply findSome?_isSome_of_mem (a := 8) (by decide)
  rw [if_pos]
  · simp
  · refine ⟨by simp, by simp [hda, hdb], ?_⟩
    rw [List.any_eq_true]
    refine ⟨suf, hsuf, ?_⟩
    simp [isPrefixOf_self_append]

theorem namePat1At_isSome {suf rest : List Char} (a b : Char)
    (hsuf : suf ∈ nameSuffixes1) (hda : dotChar a = true) (hdb : dotChar b = true) :
    (namePat1At (a :: b :: (suf ++ rest))).isSome = true := by
  unfold namePat1At
  apply findSome?_isSome_of_mem (mem_optChar_self '私' _)
  apply findSome?_isSome_of_mem (mem_optChar_self 'は' _)
  exact capSuffixAt_isSome a b hsuf hda hdb

/-- C10 (counterexample): the single-line message `"  です"` contains a
two-character run (two spaces) immediately followed by `です`, and
`extractCustomerName` indeed does not return `none` — but the trimmed
capture is the EMPTY string, refuting the claim's "non-empty". -/
theorem C10_counterexample :
    "です".data ∈ nameSuffixes1
    ∧ "  です".data = [' ', ' '] ++ ("です".data ++ [])
    ∧ 2 ≤ ([' ', ' '] : List Char).length
    ∧ extractCustomerName "  です" = some ""
    ∧ ("" : String).length = 0 := by
  refine ⟨by decide, by decide, by decide, by decide, by decide⟩

/-- C10 (amended): for every message without line terminators
containing a run of at least two characters immediately followed by
`です`, `と申します` or `といいます`, `extractCustomerName` returns some
(trimmed, possibly empty) string — never `none` — even when those
characters are not a personal name. -/
theorem C10_amended_over_capture (message : String) (pre suf rest : List Char)
    (hsuf : suf ∈ nameSuffixes1)
    (hsplit : message.data = pre ++ (suf ++ rest))
    (hlen : 2 ≤ pre.length)
    (hline : ∀ c ∈ message.data, dotChar c = true) :
    (extractCustomerName message).isSome = true := by
  obtain ⟨l₀, a, b, hpre⟩ := exists_last_two hlen
  rw [hpre] at hsplit
  have hsplit' : message.data = l₀ ++ (a :: b :: (suf ++ rest)) := by
    rw [hsplit]
    simp
  have hda : dotChar a = true := hline a (by rw [hsplit']; simp)
  have hdb : dotChar b = true := hline b (by rw [hsplit']; simp)
  have h1 : (scanFor namePat1At message.data).isSome = true := by
    rw [hsplit']
    exact scanFor_isSome_append _ _ _ (namePat1At_isSome a b hsuf hda hdb)
  unfold extractCustomerName
  obtain ⟨cap, hcap⟩ := Option.isSome_iff_exists.mp h1
  rw [hcap]
  rfl

/-- Witness for C10's amended statement: a sentence that is not a name
(`これはペンです`) still yields a captured name candidate. -/
theorem C10_amended_over_capture_witness :
    "です".data ∈ nameSuffixes1
    ∧ "これはペンです".data = "これはペン".data ++ ("です".data ++ [])
    ∧ 2 ≤ ("これはペン".data).length
    ∧ (∀ c ∈ "これはペンです".data, dotChar c = true)
    ∧ (extractCustomerName "これはペンです").isSome = true :=
  ⟨by decide, by decide, by decide, by decide,
   C10_amended_over_capture "これはペンです" "これはペン".data "です".data []
     (by decide) (by decide) (by decide) (by decide)⟩
